import Mathlib

/-!
Shallow embedding of the mood-lighting state engine of this repository:
`src/src/lighting_controller.py` and `src/src/emotion_detector.py`.

Conventions of the embedding:
* Python floats are modelled by `ℚ` (the numeric behaviour relevant to the
  spec is exact real arithmetic plus `int(...)` truncation).
* Python `int(x)` truncates toward zero; it is modelled by `pyInt`.
* The wall clock (`time.time()`) is passed in explicitly as a `now : ℚ`
  argument, so `update` becomes a deterministic function of state and time.
* Python dicts (insertion ordered) are modelled by association lists
  `List (String × _)`; assignment `d[k] = v` keeps the position of an
  existing key and appends a fresh key at the end, exactly as CPython does.
* The `DeepFace.analyze` call and the surrounding `try/except` of
  `detect_emotion` are modelled by an `Option ClassifierResult` input:
  `none` is any raised exception (no face, decode failure, ...), `some r`
  a successful classification.
-/

/-- Python `int()` applied to a rational: truncation toward zero. -/
def pyInt (q : ℚ) : ℤ := if 0 ≤ q then ⌊q⌋ else ⌈q⌉

/-- State of `LightingController` (`lighting_controller.py`, lines 14-22).
The `session_log` field is omitted: no claim mentions it and it never
influences the color/brightness state.  Channels are `ℤ` because the code
never enforces a range on them. -/
structure LightingController where
  current_color : ℤ × ℤ × ℤ
  target_color : ℤ × ℤ × ℤ
  is_on : Bool
  brightness : ℚ
  transition_speed : ℚ
  last_update : ℚ

/-- `LightingController.__init__` (lines 14-22), with the initial
`time.time()` reading passed as `t0`. -/
def initController (t0 : ℚ) : LightingController :=
  { current_color := (200, 200, 200)
    target_color := (200, 200, 200)
    is_on := false
    brightness := 7/10
    transition_speed := 1/10
    last_update := t0 }

/-- `LightingController.set_emotion_color` (lines 24-36). -/
def set_emotion_color (s : LightingController) (color : ℤ × ℤ × ℤ)
    (smooth : Bool) : LightingController :=
  if smooth then { s with target_color := color }
  else { s with current_color := color, target_color := color }

/-- One interpolated channel of `update`: `int(c1 + (c2 - c1) * step)`
(lines 50-52). -/
def interpChannel (old tgt : ℤ) (step : ℚ) : ℤ :=
  pyInt ((old : ℚ) + ((tgt : ℚ) - (old : ℚ)) * step)

/-- The "close enough" test of `update` (line 55): every interpolated
channel is strictly within 5 of its target channel. -/
def snapCond (s : LightingController) (step : ℚ) : Prop :=
  |interpChannel s.current_color.1 s.target_color.1 step - s.target_color.1| < 5 ∧
  |interpChannel s.current_color.2.1 s.target_color.2.1 step - s.target_color.2.1| < 5 ∧
  |interpChannel s.current_color.2.2 s.target_color.2.2 step - s.target_color.2.2| < 5

instance (s : LightingController) (step : ℚ) : Decidable (snapCond s step) := by
  unfold snapCond; infer_instance

/-- `LightingController.update` (lines 38-60), with `time.time()` passed
in as `now`. -/
def update (s : LightingController) (now : ℚ) : LightingController :=
  let dt := now - s.last_update
  if s.current_color = s.target_color then
    { s with last_update := now }
  else
    let step := s.transition_speed * dt * 10
    if snapCond s step then
      { s with current_color := s.target_color, last_update := now }
    else
      let nc := (interpChannel s.current_color.1 s.target_color.1 step,
        interpChannel s.current_color.2.1 s.target_color.2.1 step,
        interpChannel s.current_color.2.2 s.target_color.2.2 step)
      { s with current_color := nc, last_update := now }

/-- `LightingController.get_current_color` (lines 62-73). -/
def get_current_color (s : LightingController) : ℤ × ℤ × ℤ :=
  if s.is_on = false then (0, 0, 0)
  else
    (pyInt ((s.current_color.1 : ℚ) * s.brightness),
     pyInt ((s.current_color.2.1 : ℚ) * s.brightness),
     pyInt ((s.current_color.2.2 : ℚ) * s.brightness))

/-- `LightingController.set_brightness` (lines 75-77). -/
def set_brightness (s : LightingController) (b : ℚ) : LightingController :=
  { s with brightness := max 0 (min 1 b) }

/-- `x` lies (inclusively) between `a` and `b`, in either order. -/
def betweenI (a b x : ℤ) : Prop := (a ≤ x ∧ x ≤ b) ∨ (b ≤ x ∧ x ≤ a)

instance (a b x : ℤ) : Decidable (betweenI a b x) := by
  unfold betweenI; infer_instance

/-- One entry of `self.emotion_history` (`emotion_detector.py`, lines 68-72). -/
structure EmotionObs where
  emotion : String
  scores : List (String × ℚ)
  color : ℤ × ℤ × ℤ
  deriving DecidableEq

/-- State of `EmotionDetector` (lines 28-31). -/
structure EmotionDetector where
  last_emotion : Option String
  emotion_history : List EmotionObs
  deriving DecidableEq

/-- `EmotionDetector.__init__` (lines 28-31). -/
def initDetector : EmotionDetector := { last_emotion := none, emotion_history := [] }

/-- `EmotionDetector.EMOTION_COLORS` (lines 18-26), as an insertion-ordered
association list. -/
def EMOTION_COLORS : List (String × (ℤ × ℤ × ℤ)) :=
  [("happy", (255, 200, 0)),
   ("sad", (100, 150, 255)),
   ("angry", (255, 50, 50)),
   ("surprise", (255, 255, 100)),
   ("fear", (150, 100, 200)),
   ("disgust", (100, 200, 100)),
   ("neutral", (200, 200, 200))]

/-- Python `str.lower()` on one character (the labels involved are ASCII). -/
def pyLowerChar (c : Char) : Char :=
  if 65 ≤ c.toNat ∧ c.toNat ≤ 90 then Char.ofNat (c.toNat + 32) else c

/-- Python `str.lower()` (the labels involved are ASCII). -/
def pyLower (s : String) : String := String.mk (s.data.map pyLowerChar)

/-- Python `d.get(k, default)` on an insertion-ordered association list. -/
def listGetD {α : Type} : List (String × α) → String → α → α
  | [], _, d => d
  | p :: rest, k, d => if p.1 = k then p.2 else listGetD rest k d

/-- Python `d[k] = v` on an insertion-ordered association list: an existing
key keeps its position, a fresh key is appended at the end (CPython dict
semantics). -/
def dictSet {α : Type} : List (String × α) → String → α → List (String × α)
  | [], k, v => [(k, v)]
  | p :: rest, k, v => if p.1 = k then (k, v) :: rest else p :: dictSet rest k v

/-- A successful `DeepFace.analyze` outcome as consumed by `detect_emotion`
(lines 59-61): the per-emotion score dict and the dominant label. -/
structure ClassifierResult where
  emotion_scores : List (String × ℚ)
  dominant_emotion : String
  deriving DecidableEq

/-- The dict returned by `detect_emotion` (lines 78-95).  The `error` string
of the failure branch is not modelled (its content comes from the raised
exception, which is outside the engine). -/
structure DetectResult where
  emotion : String
  dominant_emotion : String
  scores : List (String × ℚ)
  color : ℤ × ℤ × ℤ
  face_detected : Bool
  deriving DecidableEq

/-- The history entry appended for a successful classification
(lines 63-72). -/
def obsOf (r : ClassifierResult) : EmotionObs :=
  { emotion := r.dominant_emotion
    scores := r.emotion_scores
    color := listGetD EMOTION_COLORS (pyLower r.dominant_emotion) (200, 200, 200) }

/-- The history update of `detect_emotion` (lines 68-76): append, then
`pop(0)` when the length exceeds 30. -/
def recordEntry (h : List EmotionObs) (o : EmotionObs) : List EmotionObs :=
  let h2 := h ++ [o]
  if 30 < h2.length then h2.drop 1 else h2

/-- `EmotionDetector.detect_emotion` (lines 33-95).  The `try` block is
modelled by the `some` case; `none` is any exception raised by the frame
conversion or the classifier (lines 86-95), caught before the state is
touched. -/
def detect_emotion (s : EmotionDetector) (classification : Option ClassifierResult) :
    EmotionDetector × DetectResult :=
  match classification with
  | some r =>
      ({ last_emotion := some r.dominant_emotion
         emotion_history := recordEntry s.emotion_history (obsOf r) },
       { emotion := r.dominant_emotion
         dominant_emotion := r.dominant_emotion
         scores := r.emotion_scores
         color := listGetD EMOTION_COLORS (pyLower r.dominant_emotion) (200, 200, 200)
         face_detected := true })
  | none =>
      (s,
       { emotion := "none"
         dominant_emotion := "none"
         scores := []
         color := (128, 128, 128)
         face_detected := false })

/-- Folding a sequence of successful detections through `detect_emotion`. -/
def runDetect (s : EmotionDetector) (inputs : List ClassifierResult) : EmotionDetector :=
  inputs.foldl (fun st r => (detect_emotion st (some r)).1) s

/-- Python `l[-w:]` for `w : ℕ`: the last `min w (length l)` elements,
except that `w = 0` degrades to the whole list (`l[-0:] = l[0:] = l`). -/
def pySliceLast {α : Type} (l : List α) (w : ℕ) : List α :=
  if w = 0 then l else l.drop (l.length - w)

/-- Total contribution of key `k` in one score list (`0` per pair whose key
differs). -/
def keySum (scores : List (String × ℚ)) (k : String) : ℚ :=
  (scores.map (fun p => if p.1 = k then p.2 else 0)).sum

/-- The inner loop of `get_average_emotion` (lines 114-116):
`all_scores[emotion] = all_scores.get(emotion, 0) + score`. -/
def addScores (acc scores : List (String × ℚ)) : List (String × ℚ) :=
  scores.foldl (fun a p => dictSet a p.1 (listGetD a p.1 0 + p.2)) acc

/-- The accumulation over all entries of the window (lines 113-116). -/
def allScoresOf (recent : List EmotionObs) : List (String × ℚ) :=
  recent.foldl (fun a e => addScores a e.scores) []

/-- Python `max(l, key=lambda x: x[1])`: the first pair attaining the
maximal second component (`none` on an empty list, where CPython raises). -/
def maxBySnd : List (String × ℚ) → Option (String × ℚ)
  | [] => none
  | x :: xs => some (xs.foldl (fun b p => if b.2 < p.2 then p else b) x)

/-- The dict returned by `get_average_emotion` (lines 128-132). -/
structure AvgResult where
  emotion : String
  scores : List (String × ℚ)
  color : ℤ × ℤ × ℤ
  deriving DecidableEq

/-- The dominant of the averaged scores (line 125): the first key attaining
the maximal value, `"neutral"` when the dict is empty. -/
def dominantOf (l : List (String × ℚ)) : String :=
  match maxBySnd l with
  | some p => p.1
  | none => "neutral"

/-- `EmotionDetector.get_average_emotion` (lines 97-132). -/
def get_average_emotion (s : EmotionDetector) (window_size : ℕ) : Option AvgResult :=
  if s.emotion_history = [] then none
  else
    let recent := pySliceLast s.emotion_history window_size
    let all_scores0 := allScoresOf recent
    let total := (all_scores0.map Prod.snd).sum
    let all_scores :=
      if 0 < total then all_scores0.map (fun p => (p.1, p.2 / (recent.length : ℚ)))
      else all_scores0
    let dominant := dominantOf all_scores
    some { emotion := dominant
           scores := all_scores
           color := listGetD EMOTION_COLORS (pyLower dominant) (200, 200, 200) }

/-- `EmotionDetector.get_color_for_emotion` (lines 134-136). -/
def get_color_for_emotion (emotion : String) : ℤ × ℤ × ℤ :=
  listGetD EMOTION_COLORS (pyLower emotion) (200, 200, 200)

/-- Concrete state far from its target: channels must travel 255 units. -/
def bigStepState : LightingController :=
  { current_color := (0, 0, 0)
    target_color := (255, 255, 255)
    is_on := false
    brightness := 7/10
    transition_speed := 1/10
    last_update := 0 }

/-- Concrete state one unit away from its target on the red channel. -/
def nearTargetState : LightingController :=
  { initController 0 with
      current_color := (254, 200, 0)
      target_color := (255, 200, 0) }

/-- The spec scenario: a fresh controller whose target was set to the
happy color. -/
def snapScenario : LightingController :=
  set_emotion_color (initController 0) (255, 200, 0) true

/-- Concrete switched-on state with the sad color as current color. -/
def onState : LightingController :=
  { initController 0 with
      is_on := true
      current_color := (100, 150, 255) }

/-- Concrete detector history holding the two observations of the spec
example. -/
def exampleDetector : EmotionDetector :=
  { last_emotion := some "happy"
    emotion_history :=
      [{ emotion := "happy", scores := [("happy", 80), ("sad", 20)], color := (255, 200, 0) },
       { emotion := "happy", scores := [("happy", 60), ("sad", 40)], color := (255, 200, 0) }] }

/-- 35 distinct successful classifications. -/
def inputs35 : List ClassifierResult :=
  (List.range 35).map (fun i => { emotion_scores := [("happy", (i : ℚ))], dominant_emotion := "happy" })

theorem betweenI_left (a b : ℤ) : betweenI a b a := by
  rcases le_total a b with h | h
  · exact Or.inl ⟨le_refl a, h⟩
  · exact Or.inr ⟨h, le_refl a⟩

theorem betweenI_right (a b : ℤ) : betweenI a b b := by
  rcases le_total a b with h | h
  · exact Or.inl ⟨h, le_refl b⟩
  · exact Or.inr ⟨le_refl b, h⟩

theorem pyInt_intCast (n : ℤ) : pyInt (n : ℚ) = n := by
  unfold pyInt
  split
  · exact Int.floor_intCast n
  · exact Int.ceil_intCast n

theorem pyInt_between {a b : ℤ} {x : ℚ} (ha : (a : ℚ) ≤ x) (hb : x ≤ (b : ℚ)) :
    a ≤ pyInt x ∧ pyInt x ≤ b := by
  unfold pyInt
  split
  · exact ⟨Int.le_floor.mpr ha, by
      have h1 : (⌊x⌋ : ℚ) ≤ (b : ℚ) := le_trans (Int.floor_le x) hb
      exact_mod_cast h1⟩
  · exact ⟨by
      have h1 : (a : ℚ) ≤ (⌈x⌉ : ℚ) := le_trans ha (Int.le_ceil x)
      exact_mod_cast h1, Int.ceil_le.mpr hb⟩

theorem pyInt_of_nonneg {q : ℚ} (h : 0 ≤ q) : pyInt q = ⌊q⌋ := if_pos h

/-- With a step in `[0,1]`, one interpolated channel lands between its old
value and the target. -/
theorem interpChannel_between (old tgt : ℤ) {step : ℚ}
    (h0 : 0 ≤ step) (h1 : step ≤ 1) :
    betweenI old tgt (interpChannel old tgt step) := by
  unfold interpChannel
  rcases le_total old tgt with h | h
  · have hot : (0 : ℚ) ≤ (tgt : ℚ) - (old : ℚ) := by
      have : (old : ℚ) ≤ (tgt : ℚ) := by exact_mod_cast h
      linarith
    have hlo : (old : ℚ) ≤ (old : ℚ) + ((tgt : ℚ) - (old : ℚ)) * step := by
      nlinarith
    have hhi : (old : ℚ) + ((tgt : ℚ) - (old : ℚ)) * step ≤ (tgt : ℚ) := by
      nlinarith
    exact Or.inl (pyInt_between hlo hhi)
  · have hot : (tgt : ℚ) - (old : ℚ) ≤ 0 := by
      have : (tgt : ℚ) ≤ (old : ℚ) := by exact_mod_cast h
      linarith
    have hlo : (tgt : ℚ) ≤ (old : ℚ) + ((tgt : ℚ) - (old : ℚ)) * step := by
      nlinarith
    have hhi : (old : ℚ) + ((tgt : ℚ) - (old : ℚ)) * step ≤ (old : ℚ) := by
      nlinarith
    exact Or.inr (pyInt_between hlo hhi)

theorem betweenI_abs_le {a b x : ℤ} (h : betweenI a b x) :
    |x - b| ≤ |a - b| := by
  rcases abs_cases (x - b) with ⟨e1, _⟩ | ⟨e1, _⟩ <;>
    rcases abs_cases (a - b) with ⟨e2, _⟩ | ⟨e2, _⟩ <;>
    rcases h with ⟨h1, h2⟩ | ⟨h1, h2⟩ <;> omega

/-- Core characterisation used by several claims: after a tick, each channel
either equals old (equal colors), the target (snap), or the interpolated
value; with `0 ≤ step ≤ 1` it always lies between old and target. -/
theorem update_between (s : LightingController) (now : ℚ)
    (h0 : 0 ≤ s.transition_speed * (now - s.last_update) * 10)
    (h1 : s.transition_speed * (now - s.last_update) * 10 ≤ 1) :
    betweenI s.current_color.1 s.target_color.1 (update s now).current_color.1 ∧
    betweenI s.current_color.2.1 s.target_color.2.1 (update s now).current_color.2.1 ∧
    betweenI s.current_color.2.2 s.target_color.2.2 (update s now).current_color.2.2 := by
  unfold update
  by_cases heq : s.current_color = s.target_color
  · rw [if_pos heq]
    exact ⟨betweenI_left _ _, betweenI_left _ _, betweenI_left _ _⟩
  · rw [if_neg heq]
    dsimp only
    split
    · exact ⟨betweenI_right _ _, betweenI_right _ _, betweenI_right _ _⟩
    · exact ⟨interpChannel_between _ _ h0 h1,
        interpChannel_between _ _ h0 h1,
        interpChannel_between _ _ h0 h1⟩

theorem interpChannel_zero (old tgt : ℤ) : interpChannel old tgt 0 = old := by
  unfold interpChannel
  rw [mul_zero, add_zero]
  exact pyInt_intCast old

theorem snapCond_zero (s : LightingController) :
    snapCond s 0 ↔
      (|s.current_color.1 - s.target_color.1| < 5 ∧
       |s.current_color.2.1 - s.target_color.2.1| < 5 ∧
       |s.current_color.2.2 - s.target_color.2.2| < 5) := by
  simp [snapCond, interpChannel_zero]

theorem update_last_update (s : LightingController) (now : ℚ) :
    (update s now).last_update = now := by
  unfold update
  split
  · rfl
  · dsimp only
    split <;> rfl

theorem update_target_color (s : LightingController) (now : ℚ) :
    (update s now).target_color = s.target_color := by
  unfold update
  split
  · rfl
  · dsimp only
    split <;> rfl

/-- A tick at the time of the last tick (`dt = 0`): `step = 0`, every
interpolated channel equals the old one, so the color is unchanged unless
every channel is already within the snap threshold, in which case the color
snaps to the target. -/
theorem update_dt_zero_aux (s : LightingController) :
    (update s s.last_update).current_color =
      (if snapCond s 0 then s.target_color else s.current_color) := by
  unfold update
  have h0 : s.transition_speed * (s.last_update - s.last_update) * 10 = 0 := by
    rw [sub_self, mul_zero, zero_mul]
  by_cases heq : s.current_color = s.target_color
  · rw [if_pos heq]
    dsimp only
    rw [← heq]
    split <;> rfl
  · rw [if_neg heq]
    dsimp only
    rw [h0]
    split
    · rfl
    · simp only [interpChannel_zero]

/-- C1 (counterexample): from current `(0,0,0)`, target `(255,255,255)`,
rate `1/10`, a tick with `dt = 2` has `step = 2` and drives every channel to
`510`, which does not lie between its pre-tick value `0` and its target
`255`: the interpolation of `update` overshoots for large `dt`, so the
claimed invariant fails for general non-negative `dt`. -/
theorem update_overshoots_at_large_step :
    (update bigStepState 2).current_color = (510, 510, 510) ∧
    ¬ betweenI bigStepState.current_color.1 bigStepState.target_color.1
        ((update bigStepState 2).current_color.1) := by
  constructor
  · norm_num [update, bigStepState, snapCond, interpChannel, pyInt, Prod.ext_iff]
  · norm_num [update, bigStepState, snapCond, interpChannel, pyInt, Prod.ext_iff,
      betweenI]

/-- C1 (amended): whenever the step `rate * dt * 10` of a tick lies in
`[0,1]`, each channel of `current` after the tick lies between its pre-tick
value and the corresponding channel of `target`, and each channel's absolute
distance to `target` does not increase across the tick.  (For larger steps
the counterexample shows the claim fails.) -/
theorem update_between_of_step_le_one (s : LightingController) (now : ℚ)
    (h0 : 0 ≤ s.transition_speed * (now - s.last_update) * 10)
    (h1 : s.transition_speed * (now - s.last_update) * 10 ≤ 1) :
    (betweenI s.current_color.1 s.target_color.1 (update s now).current_color.1 ∧
     betweenI s.current_color.2.1 s.target_color.2.1 (update s now).current_color.2.1 ∧
     betweenI s.current_color.2.2 s.target_color.2.2 (update s now).current_color.2.2) ∧
    (|(update s now).current_color.1 - s.target_color.1| ≤
        |s.current_color.1 - s.target_color.1| ∧
     |(update s now).current_color.2.1 - s.target_color.2.1| ≤
        |s.current_color.2.1 - s.target_color.2.1| ∧
     |(update s now).current_color.2.2 - s.target_color.2.2| ≤
        |s.current_color.2.2 - s.target_color.2.2|) := by
  obtain ⟨b1, b2, b3⟩ := update_between s now h0 h1
  exact ⟨⟨b1, b2, b3⟩, betweenI_abs_le b1, betweenI_abs_le b2, betweenI_abs_le b3⟩

/-- C1 (witness): the amended theorem applied at `bigStepState` with a tick
of `dt = 1/2`, whose step is `1/2`. -/
theorem update_between_of_step_le_one_inst :
    (betweenI bigStepState.current_color.1 bigStepState.target_color.1
        (update bigStepState (1/2)).current_color.1 ∧
     betweenI bigStepState.current_color.2.1 bigStepState.target_color.2.1
        (update bigStepState (1/2)).current_color.2.1 ∧
     betweenI bigStepState.current_color.2.2 bigStepState.target_color.2.2
        (update bigStepState (1/2)).current_color.2.2) ∧
    (|(update bigStepState (1/2)).current_color.1 - bigStepState.target_color.1| ≤
        |bigStepState.current_color.1 - bigStepState.target_color.1| ∧
     |(update bigStepState (1/2)).current_color.2.1 - bigStepState.target_color.2.1| ≤
        |bigStepState.current_color.2.1 - bigStepState.target_color.2.1| ∧
     |(update bigStepState (1/2)).current_color.2.2 - bigStepState.target_color.2.2| ≤
        |bigStepState.current_color.2.2 - bigStepState.target_color.2.2|) :=
  update_between_of_step_le_one bigStepState (1/2)
    (by norm_num [bigStepState]) (by norm_num [bigStepState])

/-- C2 (counterexample): a tick with very large `dt` (here `dt = 3`, step
`3`) leaves every channel at `765`, far outside `[0,255]`: `update` performs
no clamping whatsoever in its non-snap branch, refuting the claimed
defensive bound. -/
theorem update_exceeds_range_at_large_step :
    (update bigStepState 3).current_color = (765, 765, 765) ∧
    ¬ (update bigStepState 3).current_color.1 ≤ 255 := by
  have h : (update bigStepState 3).current_color = (765, 765, 765) := by
    norm_num [update, bigStepState, snapCond, interpChannel, pyInt, Prod.ext_iff]
  refine ⟨h, ?_⟩
  rw [h]
  norm_num

/-- C2 (amended): `update` does not clamp; nevertheless, when the starting
channels and the target channels are in `[0,255]` and the step
`rate * dt * 10` lies in `[0,1]`, the post-tick channels stay in `[0,255]`
(as a consequence of the interpolation staying between old value and
target, not of any clamp). -/
theorem update_range_of_step_le_one (s : LightingController) (now : ℚ)
    (hc : 0 ≤ s.current_color.1 ∧ s.current_color.1 ≤ 255 ∧
          0 ≤ s.current_color.2.1 ∧ s.current_color.2.1 ≤ 255 ∧
          0 ≤ s.current_color.2.2 ∧ s.current_color.2.2 ≤ 255)
    (ht : 0 ≤ s.target_color.1 ∧ s.target_color.1 ≤ 255 ∧
          0 ≤ s.target_color.2.1 ∧ s.target_color.2.1 ≤ 255 ∧
          0 ≤ s.target_color.2.2 ∧ s.target_color.2.2 ≤ 255)
    (h0 : 0 ≤ s.transition_speed * (now - s.last_update) * 10)
    (h1 : s.transition_speed * (now - s.last_update) * 10 ≤ 1) :
    0 ≤ (update s now).current_color.1 ∧ (update s now).current_color.1 ≤ 255 ∧
    0 ≤ (update s now).current_color.2.1 ∧ (update s now).current_color.2.1 ≤ 255 ∧
    0 ≤ (update s now).current_color.2.2 ∧ (update s now).current_color.2.2 ≤ 255 := by
  obtain ⟨b1, b2, b3⟩ := update_between s now h0 h1
  unfold betweenI at b1 b2 b3
  rcases b1 with ⟨x1, x2⟩ | ⟨x1, x2⟩ <;> rcases b2 with ⟨y1, y2⟩ | ⟨y1, y2⟩ <;>
    rcases b3 with ⟨z1, z2⟩ | ⟨z1, z2⟩ <;> omega

/-- C2 (witness): the amended theorem applied at `bigStepState` with a tick
of `dt = 1`, whose step is `1`. -/
theorem update_range_of_step_le_one_inst :
    0 ≤ (update bigStepState 1).current_color.1 ∧
    (update bigStepState 1).current_color.1 ≤ 255 ∧
    0 ≤ (update bigStepState 1).current_color.2.1 ∧
    (update bigStepState 1).current_color.2.1 ≤ 255 ∧
    0 ≤ (update bigStepState 1).current_color.2.2 ∧
    (update bigStepState 1).current_color.2.2 ≤ 255 :=
  update_range_of_step_le_one bigStepState 1
    (by norm_num [bigStepState]) (by norm_num [bigStepState])
    (by norm_num [bigStepState]) (by norm_num [bigStepState])

/-- C3: when the lights are off, `get_current_color` returns `(0,0,0)`
regardless of the transition state; when they are on (with the data model's
non-negative brightness and channels), each channel is independently
multiplied by `brightness` and floored (Python `int` truncation, which on
non-negative values is the floor). -/
theorem get_current_color_spec (s : LightingController) :
    (s.is_on = false → get_current_color s = (0, 0, 0)) ∧
    (s.is_on = true → 0 ≤ s.brightness → 0 ≤ s.current_color.1 →
      0 ≤ s.current_color.2.1 → 0 ≤ s.current_color.2.2 →
      get_current_color s =
        (⌊(s.current_color.1 : ℚ) * s.brightness⌋,
         ⌊(s.current_color.2.1 : ℚ) * s.brightness⌋,
         ⌊(s.current_color.2.2 : ℚ) * s.brightness⌋)) := by
  constructor
  · intro h
    unfold get_current_color
    rw [if_pos h]
  · intro h hb h1 h2 h3
    unfold get_current_color
    rw [if_neg (by simp [h])]
    have c1 : (0 : ℚ) ≤ (s.current_color.1 : ℚ) := by exact_mod_cast h1
    have c2 : (0 : ℚ) ≤ (s.current_color.2.1 : ℚ) := by exact_mod_cast h2
    have c3 : (0 : ℚ) ≤ (s.current_color.2.2 : ℚ) := by exact_mod_cast h3
    rw [pyInt_of_nonneg (mul_nonneg c1 hb), pyInt_of_nonneg (mul_nonneg c2 hb),
      pyInt_of_nonneg (mul_nonneg c3 hb)]

/-- C3 (witness): the theorem applied to a switched-on controller at color
`(100,150,255)` with the initial brightness `0.7`: the output is
`(70, 105, 178)`, the last channel showing the truncation of `178.5`. -/
theorem get_current_color_spec_inst :
    get_current_color onState = (70, 105, 178) := by
  have h := (get_current_color_spec onState).2 rfl
    (by norm_num [onState, initController]) (by norm_num [onState, initController])
    (by norm_num [onState, initController]) (by norm_num [onState, initController])
  rw [h]
  norm_num [onState, initController, Prod.ext_iff]

/-- C5: whenever `current ≠ target` and every interpolated channel lands
strictly within 5 units of its target channel, the tick snaps `current`
exactly to `target`. -/
theorem update_snaps_within_threshold (s : LightingController) (now : ℚ)
    (hneq : s.current_color ≠ s.target_color)
    (hsnap : snapCond s (s.transition_speed * (now - s.last_update) * 10)) :
    (update s now).current_color = s.target_color := by
  unfold update
  rw [if_neg hneq]
  dsimp only
  rw [if_pos hsnap]

/-- C5 (witness): the spec scenario: `set_target((255,200,0))` from
`current = (200,200,200)`, rate `0.1`, then a tick with `dt = 1` (step `1`):
the color snaps directly to `(255,200,0)`. -/
theorem update_snaps_within_threshold_inst :
    (update snapScenario 1).current_color = (255, 200, 0) := by
  have h := update_snaps_within_threshold snapScenario 1
    (by norm_num [snapScenario, set_emotion_color, initController, Prod.ext_iff])
    (by norm_num [snapCond, interpChannel, pyInt, snapScenario, set_emotion_color,
      initController])
  rw [h]
  norm_num [snapScenario, set_emotion_color, initController]

/-- C7 (counterexample): a tick with `dt = 0` is not always a no-op
color-wise: from `current = (254,200,0)`, `target = (255,200,0)` a tick at
the very timestamp of the last tick still snaps `current` to the target,
because the snap test is evaluated even when `step = 0`. -/
theorem update_dt_zero_can_change_color :
    nearTargetState.last_update = 0 ∧
    (update nearTargetState 0).current_color ≠ nearTargetState.current_color ∧
    (update nearTargetState 0).current_color = (255, 200, 0) := by
  have h : (update nearTargetState 0).current_color = (255, 200, 0) := by
    norm_num [update, nearTargetState, initController, snapCond, interpChannel,
      pyInt, Prod.ext_iff]
  refine ⟨rfl, ?_, h⟩
  rw [h]
  norm_num [nearTargetState, initController, Prod.ext_iff]

/-- C7 (amended): a tick with `dt = 0` always advances `last_update` to the
supplied timestamp, and leaves `current` unchanged unless `current` is
already strictly within 5 units of `target` on every channel, in which case
it snaps `current` to `target`. -/
theorem update_dt_zero_spec (s : LightingController) (now : ℚ)
    (h : now = s.last_update) :
    (update s now).current_color =
      (if |s.current_color.1 - s.target_color.1| < 5 ∧
          |s.current_color.2.1 - s.target_color.2.1| < 5 ∧
          |s.current_color.2.2 - s.target_color.2.2| < 5
       then s.target_color else s.current_color) ∧
    (update s now).last_update = now := by
  subst h
  refine ⟨?_, update_last_update s s.last_update⟩
  rw [update_dt_zero_aux s]
  simp only [snapCond_zero]

/-- C7 (witness): the amended theorem applied at `bigStepState` (far from
its target) with `now = 0 = last_update`: the color is unchanged and
`last_update` is advanced. -/
theorem update_dt_zero_spec_inst :
    (update bigStepState 0).current_color = (0, 0, 0) ∧
    (update bigStepState 0).last_update = 0 := by
  have h := update_dt_zero_spec bigStepState 0 rfl
  refine ⟨?_, h.2⟩
  rw [h.1]
  norm_num [bigStepState, Prod.ext_iff]

/-- C8: calling `update` twice with the same timestamp changes nothing on
the second call: if the first tick snapped (or the colors were equal) the
second tick starts from `current = target`; otherwise some channel of the
new color is at least 5 from target, and with `dt = 0` the second
interpolation reproduces that color and the snap test fails again. -/
theorem update_idempotent_same_now (s : LightingController) (now : ℚ) :
    (update (update s now) now).current_color = (update s now).current_color := by
  have hlast : (update s now).last_update = now := update_last_update s now
  have h2 := update_dt_zero_aux (update s now)
  rw [hlast] at h2
  rw [h2]
  by_cases heq : s.current_color = s.target_color
  · have hcur : (update s now).current_color = s.current_color := by
      unfold update
      rw [if_pos heq]
    rw [update_target_color, hcur, heq]
    split <;> rfl
  · by_cases hsnap : snapCond s (s.transition_speed * (now - s.last_update) * 10)
    · have hcur : (update s now).current_color = s.target_color := by
        unfold update
        rw [if_neg heq]
        dsimp only
        rw [if_pos hsnap]
      rw [update_target_color, hcur]
      split <;> rfl
    · have hcur : (update s now).current_color =
          (interpChannel s.current_color.1 s.target_color.1
            (s.transition_speed * (now - s.last_update) * 10),
           interpChannel s.current_color.2.1 s.target_color.2.1
            (s.transition_speed * (now - s.last_update) * 10),
           interpChannel s.current_color.2.2 s.target_color.2.2
            (s.transition_speed * (now - s.last_update) * 10)) := by
        unfold update
        rw [if_neg heq]
        dsimp only
        rw [if_neg hsnap]
      have hns : ¬ snapCond (update s now) 0 := by
        rw [snapCond_zero, update_target_color, hcur]
        simpa [snapCond] using hsnap
      rw [if_neg hns]

/-- C9: on any classification failure (modelled by `none`), `detect_emotion`
returns the fixed failure dict: no face detected, label `"none"`, empty
scores, gray `(128,128,128)` — a color distinct from the neutral fallback
`(200,200,200)` — and leaves the detector state (both `last_emotion` and the
history) untouched. -/
theorem detect_emotion_failure_spec (s : EmotionDetector) :
    detect_emotion s none =
      (s, { emotion := "none", dominant_emotion := "none", scores := [],
            color := (128, 128, 128), face_detected := false }) ∧
    ((128, 128, 128) : ℤ × ℤ × ℤ) ≠ ((200, 200, 200) : ℤ × ℤ × ℤ) := by
  refine ⟨rfl, by decide⟩

theorem foldl_recordEntry (xs : List EmotionObs) :
    ∀ acc : List EmotionObs, acc.length ≤ 30 →
      xs.foldl recordEntry acc = (acc ++ xs).drop ((acc.length + xs.length) - 30) := by
  induction xs with
  | nil =>
    intro acc h
    have h0 : acc.length + ([] : List EmotionObs).length - 30 = 0 := by
      simp only [List.length_nil]
      omega
    rw [List.foldl_nil, List.append_nil, h0, List.drop_zero]
  | cons x rest ih =>
    intro acc h
    rw [List.foldl_cons]
    have harr : (acc ++ [x]) ++ rest = acc ++ x :: rest := by
      rw [List.append_assoc, List.singleton_append]
    by_cases hlen : acc.length + 1 ≤ 30
    · have hrec : recordEntry acc x = acc ++ [x] := by
        unfold recordEntry
        dsimp only
        rw [if_neg (by
          simp only [List.length_append, List.length_cons, List.length_nil]
          omega)]
      have hle : (acc ++ [x]).length ≤ 30 := by
        simp only [List.length_append, List.length_cons, List.length_nil]
        omega
      rw [hrec, ih (acc ++ [x]) hle, harr]
      congr 1
      simp only [List.length_append, List.length_cons, List.length_nil]
      omega
    · have hacc : acc.length = 30 := by omega
      have hrec : recordEntry acc x = (acc ++ [x]).drop 1 := by
        unfold recordEntry
        dsimp only
        rw [if_pos (by
          simp only [List.length_append, List.length_cons, List.length_nil]
          omega)]
      have hlen2 : ((acc ++ [x]).drop 1).length = 30 := by
        simp only [List.length_drop, List.length_append, List.length_cons,
          List.length_nil, hacc]
      rw [hrec, ih _ (le_of_eq hlen2), hlen2]
      rw [← List.drop_append_of_le_length (by
        simp only [List.length_append, List.length_cons, List.length_nil]
        omega)]
      rw [List.drop_drop, harr]
      congr 1
      simp only [List.length_append, List.length_cons, List.length_nil, hacc]
      omega

theorem runDetect_history (inputs : List ClassifierResult) :
    ∀ s : EmotionDetector,
      (runDetect s inputs).emotion_history =
        (inputs.map obsOf).foldl recordEntry s.emotion_history := by
  induction inputs with
  | nil => intro s; rfl
  | cons r rest ih =>
    intro s
    exact ih ((detect_emotion s (some r)).1)

/-- C6: the history is FIFO-bounded at 30 entries: running any sequence of
successful detections from a fresh detector leaves the last
`min (count, 30)` observations in order; in particular any run keeps the
length at most 30, and after 35 recordings the history is exactly the last
30 observations (the oldest 5 evicted) with length 30. -/
theorem emotion_history_fifo_bound (inputs : List ClassifierResult)
    (h : inputs.length = 35) :
    (runDetect initDetector inputs).emotion_history = (inputs.map obsOf).drop 5 ∧
    (runDetect initDetector inputs).emotion_history.length = 30 ∧
    (∀ inputs2 : List ClassifierResult,
      (runDetect initDetector inputs2).emotion_history.length ≤ 30) := by
  have key : ∀ il : List ClassifierResult,
      (runDetect initDetector il).emotion_history =
        (il.map obsOf).drop ((il.map obsOf).length - 30) := by
    intro il
    rw [runDetect_history il initDetector]
    have h2 := foldl_recordEntry (il.map obsOf) [] (by simp)
    simpa using h2
  refine ⟨?_, ?_, ?_⟩
  · rw [key inputs]
    congr 1
    simp [h]
  · rw [key inputs]
    simp [h]
  · intro il
    rw [key il]
    simp only [List.length_drop, List.length_map]
    omega

/-- C6 (witness): the theorem applied to 35 concrete distinct
classifications. -/
theorem emotion_history_fifo_bound_inst :
    (runDetect initDetector inputs35).emotion_history = (inputs35.map obsOf).drop 5 ∧
    (runDetect initDetector inputs35).emotion_history.length = 30 ∧
    (∀ inputs2 : List ClassifierResult,
      (runDetect initDetector inputs2).emotion_history.length ≤ 30) :=
  emotion_history_fifo_bound inputs35 rfl

theorem listGetD_dictSet_self {α : Type} (m : List (String × α)) (k : String)
    (v d : α) : listGetD (dictSet m k v) k d = v := by
  induction m with
  | nil => simp [dictSet, listGetD]
  | cons p rest ih =>
    by_cases h : p.1 = k
    · simp [dictSet, h, listGetD]
    · simp [dictSet, h, listGetD, ih]

theorem listGetD_dictSet_ne {α : Type} (m : List (String × α)) (k k2 : String)
    (v d : α) (h : k2 ≠ k) : listGetD (dictSet m k v) k2 d = listGetD m k2 d := by
  induction m with
  | nil =>
    simp only [dictSet, listGetD]
    rw [if_neg (Ne.symm h)]
  | cons p rest ih =>
    by_cases hp : p.1 = k
    · simp only [dictSet, if_pos hp, listGetD]
      rw [if_neg (Ne.symm h), if_neg (by rw [hp]; exact Ne.symm h)]
    · simp only [dictSet, if_neg hp, listGetD, ih]

theorem keys_dictSet {α : Type} (m : List (String × α)) (k : String) (v : α)
    (k2 : String) :
    k2 ∈ (dictSet m k v).map Prod.fst ↔ k2 ∈ m.map Prod.fst ∨ k2 = k := by
  induction m with
  | nil => simp [dictSet]
  | cons p rest ih =>
    by_cases hp : p.1 = k
    · simp [dictSet, hp]
      tauto
    · simp [dictSet, hp, ih]
      tauto

theorem nodupKeys_dictSet {α : Type} (m : List (String × α)) (k : String) (v : α)
    (h : (m.map Prod.fst).Nodup) : ((dictSet m k v).map Prod.fst).Nodup := by
  induction m with
  | nil => simp [dictSet]
  | cons p rest ih =>
    rw [List.map_cons, List.nodup_cons] at h
    by_cases hp : p.1 = k
    · rw [dictSet]
      simp only [if_pos hp, List.map_cons, List.nodup_cons]
      exact ⟨by rw [← hp]; exact h.1, h.2⟩
    · rw [dictSet]
      simp only [if_neg hp, List.map_cons, List.nodup_cons]
      refine ⟨?_, ih h.2⟩
      intro hc
      rcases (keys_dictSet rest k v p.1).mp hc with hc2 | hc2
      · exact h.1 hc2
      · exact hp hc2

theorem keySum_cons (p : String × ℚ) (rest : List (String × ℚ)) (k : String) :
    keySum (p :: rest) k = (if p.1 = k then p.2 else 0) + keySum rest k := by
  simp [keySum]

theorem keySum_zero_of_not_mem (scores : List (String × ℚ)) (k : String)
    (h : k ∉ scores.map Prod.fst) : keySum scores k = 0 := by
  induction scores with
  | nil => simp [keySum]
  | cons p rest ih =>
    rw [List.map_cons, List.mem_cons] at h
    push_neg at h
    rw [keySum_cons, if_neg (fun hc => h.1 hc.symm), ih h.2, add_zero]

theorem keySum_eq_listGetD (scores : List (String × ℚ)) (k : String)
    (hnd : (scores.map Prod.fst).Nodup) : keySum scores k = listGetD scores k 0 := by
  induction scores with
  | nil => simp [keySum, listGetD]
  | cons p rest ih =>
    rw [List.map_cons, List.nodup_cons] at hnd
    rw [keySum_cons, listGetD]
    by_cases h : p.1 = k
    · rw [if_pos h, if_pos h, ← h]
      rw [keySum_zero_of_not_mem rest p.1 hnd.1, add_zero]
    · rw [if_neg h, if_neg h, ih hnd.2, zero_add]

theorem keySum_nonneg (scores : List (String × ℚ)) (k : String)
    (h : ∀ p ∈ scores, 0 ≤ p.2) : 0 ≤ keySum scores k := by
  unfold keySum
  apply List.sum_nonneg
  intro x hx
  rw [List.mem_map] at hx
  obtain ⟨p, hp, rfl⟩ := hx
  split
  · exact h p hp
  · exact le_refl 0

theorem listGetD_addScores (scores : List (String × ℚ)) :
    ∀ acc : List (String × ℚ), ∀ k : String,
      listGetD (addScores acc scores) k 0 = listGetD acc k 0 + keySum scores k := by
  induction scores with
  | nil => intro acc k; simp [addScores, keySum]
  | cons p rest ih =>
    intro acc k
    have e : addScores acc (p :: rest) =
        addScores (dictSet acc p.1 (listGetD acc p.1 0 + p.2)) rest := rfl
    rw [e, ih, keySum_cons]
    by_cases h : p.1 = k
    · subst h
      rw [listGetD_dictSet_self, if_pos rfl]
      ring
    · rw [listGetD_dictSet_ne _ _ _ _ _ (Ne.symm h), if_neg h]
      ring

theorem keys_addScores (scores : List (String × ℚ)) :
    ∀ acc : List (String × ℚ), ∀ k : String,
      k ∈ (addScores acc scores).map Prod.fst ↔
        k ∈ acc.map Prod.fst ∨ k ∈ scores.map Prod.fst := by
  induction scores with
  | nil => intro acc k; simp [addScores]
  | cons p rest ih =>
    intro acc k
    have e : addScores acc (p :: rest) =
        addScores (dictSet acc p.1 (listGetD acc p.1 0 + p.2)) rest := rfl
    rw [e, ih, keys_dictSet, List.map_cons, List.mem_cons]
    constructor
    · rintro ((h | h) | h)
      · exact Or.inl h
      · exact Or.inr (Or.inl h)
      · exact Or.inr (Or.inr h)
    · rintro (h | h | h)
      · exact Or.inl (Or.inl h)
      · exact Or.inl (Or.inr h)
      · exact Or.inr h

theorem nodupKeys_addScores (scores : List (String × ℚ)) :
    ∀ acc : List (String × ℚ), (acc.map Prod.fst).Nodup →
      ((addScores acc scores).map Prod.fst).Nodup := by
  induction scores with
  | nil => intro acc h; exact h
  | cons p rest ih =>
    intro acc h
    exact ih _ (nodupKeys_dictSet acc p.1 _ h)

theorem listGetD_foldr_scores (recent : List EmotionObs) :
    ∀ acc : List (String × ℚ), ∀ k : String,
      listGetD (recent.foldl (fun a e => addScores a e.scores) acc) k 0 =
        listGetD acc k 0 + (recent.map (fun e => keySum e.scores k)).sum := by
  induction recent with
  | nil => intro acc k; simp
  | cons e rest ih =>
    intro acc k
    rw [List.foldl_cons, ih, listGetD_addScores, List.map_cons, List.sum_cons]
    ring

theorem keys_foldl_scores (recent : List EmotionObs) :
    ∀ acc : List (String × ℚ), ∀ k : String,
      k ∈ ((recent.foldl (fun a e => addScores a e.scores) acc).map Prod.fst) ↔
        k ∈ acc.map Prod.fst ∨ ∃ e ∈ recent, k ∈ e.scores.map Prod.fst := by
  induction recent with
  | nil => intro acc k; simp
  | cons e rest ih =>
    intro acc k
    rw [List.foldl_cons, ih, keys_addScores]
    constructor
    · rintro ((h | h) | h)
      · exact Or.inl h
      · exact Or.inr ⟨e, List.mem_cons_self e rest, h⟩
      · obtain ⟨e2, he2, hk⟩ := h
        exact Or.inr ⟨e2, List.mem_cons_of_mem e he2, hk⟩
    · rintro (h | h)
      · exact Or.inl (Or.inl h)
      · obtain ⟨e2, he2, hk⟩ := h
        rcases List.mem_cons.mp he2 with rfl | he3
        · exact Or.inl (Or.inr hk)
        · exact Or.inr ⟨e2, he3, hk⟩

theorem nodupKeys_foldl_scores (recent : List EmotionObs) :
    ∀ acc : List (String × ℚ), (acc.map Prod.fst).Nodup →
      (((recent.foldl (fun a e => addScores a e.scores) acc)).map Prod.fst).Nodup := by
  induction recent with
  | nil => intro acc h; exact h
  | cons e rest ih =>
    intro acc h
    exact ih _ (nodupKeys_addScores e.scores acc h)

theorem listGetD_of_mem_nodup {α : Type} (l : List (String × α)) (p : String × α)
    (d : α) (hnd : (l.map Prod.fst).Nodup) (hp : p ∈ l) : listGetD l p.1 d = p.2 := by
  induction l with
  | nil => cases hp
  | cons q rest ih =>
    rw [List.map_cons, List.nodup_cons] at hnd
    rcases List.mem_cons.mp hp with rfl | hp2
    · rw [listGetD, if_pos rfl]
    · rw [listGetD, if_neg ?_]
      · exact ih hnd.2 hp2
      · intro hc
        exact hnd.1 (hc ▸ List.mem_map_of_mem Prod.fst hp2)

theorem listGetD_zero_of_all_zero (l : List (String × ℚ)) (k : String)
    (h : ∀ p ∈ l, p.2 = 0) : listGetD l k 0 = 0 := by
  induction l with
  | nil => rfl
  | cons q rest ih =>
    rw [listGetD]
    split
    · exact h q (List.mem_cons_self q rest)
    · exact ih (fun p hp => h p (List.mem_cons_of_mem q hp))

theorem values_zero_of_sum_nonpos (l : List (String × ℚ))
    (hpos : ∀ p ∈ l, 0 ≤ p.2) (hsum : (l.map Prod.snd).sum ≤ 0) :
    ∀ p ∈ l, p.2 = 0 := by
  induction l with
  | nil => simp
  | cons q rest ih =>
    rw [List.map_cons, List.sum_cons] at hsum
    have hq : 0 ≤ q.2 := hpos q (List.mem_cons_self q rest)
    have hrest : 0 ≤ (rest.map Prod.snd).sum := by
      apply List.sum_nonneg
      intro x hx
      rw [List.mem_map] at hx
      obtain ⟨p, hp, rfl⟩ := hx
      exact hpos p (List.mem_cons_of_mem q hp)
    intro p hp
    rcases List.mem_cons.mp hp with rfl | hp2
    · linarith
    · exact ih (fun p2 h2 => hpos p2 (List.mem_cons_of_mem q h2)) (by linarith) p hp2

theorem listGetD_map_div (l : List (String × ℚ)) (k : String) (c : ℚ) :
    listGetD (l.map (fun p => (p.1, p.2 / c))) k 0 = listGetD l k 0 / c := by
  induction l with
  | nil => simp [listGetD]
  | cons p rest ih =>
    by_cases h : p.1 = k <;> simp [listGetD, h, ih]

theorem keys_map_div (l : List (String × ℚ)) (c : ℚ) :
    (l.map (fun p => (p.1, p.2 / c))).map Prod.fst = l.map Prod.fst := by
  rw [List.map_map]
  rfl

theorem foldl_max_spec (l : List (String × ℚ)) :
    ∀ x : String × ℚ,
      (l.foldl (fun b p => if b.2 < p.2 then p else b) x) ∈ x :: l ∧
      ∀ q ∈ x :: l, q.2 ≤ (l.foldl (fun b p => if b.2 < p.2 then p else b) x).2 := by
  induction l with
  | nil =>
    intro x
    refine ⟨List.mem_cons_self x [], ?_⟩
    intro q hq
    rcases List.mem_cons.mp hq with rfl | hq2
    · exact le_refl _
    · cases hq2
  | cons p rest ih =>
    intro x
    rw [List.foldl_cons]
    obtain ⟨hmem, hmax⟩ := ih (if x.2 < p.2 then p else x)
    have hy : (if x.2 < p.2 then p else x) = p ∨ (if x.2 < p.2 then p else x) = x := by
      split
      · exact Or.inl rfl
      · exact Or.inr rfl
    constructor
    · rcases List.mem_cons.mp hmem with h | h
      · rcases hy with hy | hy <;> rw [h, hy]
        · exact List.mem_cons_of_mem x (List.mem_cons_self p rest)
        · exact List.mem_cons_self x (p :: rest)
      · exact List.mem_cons_of_mem x (List.mem_cons_of_mem p h)
    · intro q hq
      have hxy : x.2 ≤ (if x.2 < p.2 then p else x).2 := by
        split
        · rename_i hc
          exact le_of_lt hc
        · exact le_refl _
      have hpy : p.2 ≤ (if x.2 < p.2 then p else x).2 := by
        split
        · exact le_refl _
        · rename_i hc
          exact le_of_not_lt hc
      have hym := hmax _ (List.mem_cons_self _ _)
      rcases List.mem_cons.mp hq with rfl | hq2
      · exact le_trans hxy hym
      · rcases List.mem_cons.mp hq2 with rfl | hq3
        · exact le_trans hpy hym
        · exact hmax _ (List.mem_cons_of_mem _ hq3)

theorem max_dominant (L : List (String × ℚ)) (hnd : (L.map Prod.fst).Nodup) :
    ∀ p ∈ L, p.2 ≤ listGetD L (dominantOf L) 0 := by
  cases L with
  | nil => simp
  | cons hd tl =>
    intro p hp
    obtain ⟨hmem, hmax⟩ := foldl_max_spec tl hd
    have hm : dominantOf (hd :: tl) =
        (tl.foldl (fun b p => if b.2 < p.2 then p else b) hd).1 := rfl
    rw [hm]
    rw [listGetD_of_mem_nodup (hd :: tl) _ 0 hnd hmem]
    exact hmax p hp

/-- Full characterisation of `get_average_emotion` on a non-empty history
whose score dicts have distinct keys and non-negative scores: it returns a
result whose scores map each key to the sum of that key's scores over the
window divided by the window length, whose key set is the union of the
window's key sets, and whose dominant label attains the maximal averaged
score. -/
theorem get_average_emotion_spec (s : EmotionDetector) (w : ℕ)
    (hne : ¬ s.emotion_history = [])
    (hnd : ∀ e ∈ s.emotion_history, (e.scores.map Prod.fst).Nodup)
    (hpos : ∀ e ∈ s.emotion_history, ∀ p ∈ e.scores, 0 ≤ p.2) :
    ∃ res : AvgResult, get_average_emotion s w = some res ∧
      (∀ k, listGetD res.scores k 0 =
        ((pySliceLast s.emotion_history w).map (fun e => listGetD e.scores k 0)).sum /
          ((pySliceLast s.emotion_history w).length : ℚ)) ∧
      (∀ k, k ∈ res.scores.map Prod.fst ↔
        ∃ e ∈ pySliceLast s.emotion_history w, k ∈ e.scores.map Prod.fst) ∧
      (∀ p ∈ res.scores, p.2 ≤ listGetD res.scores res.emotion 0) := by
  have hsub : ∀ e ∈ pySliceLast s.emotion_history w, e ∈ s.emotion_history := by
    intro e he
    unfold pySliceLast at he
    split at he
    · exact he
    · exact List.drop_subset _ _ he
  have hA0get : ∀ k, listGetD (allScoresOf (pySliceLast s.emotion_history w)) k 0 =
      ((pySliceLast s.emotion_history w).map (fun e => listGetD e.scores k 0)).sum := by
    intro k
    unfold allScoresOf
    rw [listGetD_foldr_scores]
    rw [show listGetD ([] : List (String × ℚ)) k 0 = 0 from rfl, zero_add]
    congr 1
    apply List.map_congr_left
    intro e he
    exact keySum_eq_listGetD e.scores k (hnd e (hsub e he))
  have hA0keys : ∀ k,
      k ∈ (allScoresOf (pySliceLast s.emotion_history w)).map Prod.fst ↔
        ∃ e ∈ pySliceLast s.emotion_history w, k ∈ e.scores.map Prod.fst := by
    intro k
    unfold allScoresOf
    rw [keys_foldl_scores]
    simp
  have hA0nd : ((allScoresOf (pySliceLast s.emotion_history w)).map Prod.fst).Nodup := by
    unfold allScoresOf
    exact nodupKeys_foldl_scores _ [] (by simp)
  have hA0pos : ∀ p ∈ allScoresOf (pySliceLast s.emotion_history w), 0 ≤ p.2 := by
    intro p hp
    have hv := listGetD_of_mem_nodup _ p 0 hA0nd hp
    rw [← hv, hA0get]
    apply List.sum_nonneg
    intro x hx
    rw [List.mem_map] at hx
    obtain ⟨e, he, rfl⟩ := hx
    rw [← keySum_eq_listGetD e.scores p.1 (hnd e (hsub e he))]
    exact keySum_nonneg _ _ (hpos e (hsub e he))
  unfold get_average_emotion
  rw [if_neg hne]
  dsimp only
  refine ⟨_, rfl, ?_, ?_, ?_⟩
  · intro k
    dsimp only
    by_cases htot :
        0 < ((allScoresOf (pySliceLast s.emotion_history w)).map Prod.snd).sum
    · rw [if_pos htot, listGetD_map_div, hA0get]
    · rw [if_neg htot]
      have hzero := values_zero_of_sum_nonpos _ hA0pos (le_of_not_lt htot)
      rw [listGetD_zero_of_all_zero _ k hzero]
      rw [← hA0get k, listGetD_zero_of_all_zero _ k hzero, zero_div]
  · intro k
    dsimp only
    by_cases htot :
        0 < ((allScoresOf (pySliceLast s.emotion_history w)).map Prod.snd).sum
    · rw [if_pos htot]
      rw [keys_map_div]
      exact hA0keys k
    · rw [if_neg htot]
      exact hA0keys k
  · dsimp only
    by_cases htot :
        0 < ((allScoresOf (pySliceLast s.emotion_history w)).map Prod.snd).sum
    · rw [if_pos htot]
      apply max_dominant
      rw [keys_map_div]
      exact hA0nd
    · rw [if_neg htot]
      exact max_dominant _ hA0nd

/-- C4: for a non-empty history (with the data model's distinct-keyed,
non-negative score dicts) and positive window, `get_average_emotion` takes
the last `min w (length)` observations, maps each key appearing in any of
them to the sum of its scores over the window divided by the window length
(absent keys contributing 0), and picks as dominant a key of maximal
averaged score; it returns `none` exactly on an empty history; and on the
spec's concrete two-observation example with window 2 it returns
happy 70 / sad 30 with dominant `"happy"`. -/
theorem get_average_emotion_correct (s : EmotionDetector) (w : ℕ) (hw : 0 < w)
    (hne : ¬ s.emotion_history = [])
    (hnd : ∀ e ∈ s.emotion_history, (e.scores.map Prod.fst).Nodup)
    (hpos : ∀ e ∈ s.emotion_history, ∀ p ∈ e.scores, 0 ≤ p.2) :
    (∃ res : AvgResult, get_average_emotion s w = some res ∧
      (∀ k, listGetD res.scores k 0 =
        ((pySliceLast s.emotion_history w).map (fun e => listGetD e.scores k 0)).sum /
          ((pySliceLast s.emotion_history w).length : ℚ)) ∧
      (∀ k, k ∈ res.scores.map Prod.fst ↔
        ∃ e ∈ pySliceLast s.emotion_history w, k ∈ e.scores.map Prod.fst) ∧
      (∀ p ∈ res.scores, p.2 ≤ listGetD res.scores res.emotion 0)) ∧
    (∀ s2 : EmotionDetector, ∀ w2 : ℕ,
      get_average_emotion s2 w2 = none ↔ s2.emotion_history = []) ∧
    get_average_emotion exampleDetector 2 =
      some { emotion := "happy", scores := [("happy", 70), ("sad", 30)],
             color := (255, 200, 0) } := by
  refine ⟨get_average_emotion_spec s w hne hnd hpos, ?_, ?_⟩
  · intro s2 w2
    by_cases h : s2.emotion_history = []
    · simp [get_average_emotion, h]
    · simp [get_average_emotion, h]
  · have h1 : ¬ ("happy" : String) = "sad" := by decide
    have h2 : ¬ ("sad" : String) = "happy" := by decide
    have h3 : pyLower "happy" = "happy" := by decide
    norm_num [get_average_emotion, exampleDetector, pySliceLast, allScoresOf,
      addScores, dictSet, listGetD, maxBySnd, dominantOf, EMOTION_COLORS, h1, h2, h3]
    intro hcontra
    exact absurd hcontra (List.cons_ne_nil _ _)

/-- C4 (witness): the theorem applied at the spec's two-observation
detector with window 2. -/
theorem get_average_emotion_correct_inst :
    (∃ res : AvgResult, get_average_emotion exampleDetector 2 = some res ∧
      (∀ k, listGetD res.scores k 0 =
        ((pySliceLast exampleDetector.emotion_history 2).map
            (fun e => listGetD e.scores k 0)).sum /
          ((pySliceLast exampleDetector.emotion_history 2).length : ℚ)) ∧
      (∀ k, k ∈ res.scores.map Prod.fst ↔
        ∃ e ∈ pySliceLast exampleDetector.emotion_history 2,
          k ∈ e.scores.map Prod.fst) ∧
      (∀ p ∈ res.scores, p.2 ≤ listGetD res.scores res.emotion 0)) ∧
    (∀ s2 : EmotionDetector, ∀ w2 : ℕ,
      get_average_emotion s2 w2 = none ↔ s2.emotion_history = []) ∧
    get_average_emotion exampleDetector 2 =
      some { emotion := "happy", scores := [("happy", 70), ("sad", 30)],
             color := (255, 200, 0) } :=
  get_average_emotion_correct exampleDetector 2 (by decide)
    (by decide) (by decide) (by decide)

/-- C10: calling `average` with window 0 on a non-empty history does not
return `none` and does not produce an empty average: Python `history[-0:]`
is the whole history, so the result averages every recorded observation
over the full history length. -/
theorem get_average_emotion_window_zero (s : EmotionDetector)
    (hne : ¬ s.emotion_history = [])
    (hnd : ∀ e ∈ s.emotion_history, (e.scores.map Prod.fst).Nodup)
    (hpos : ∀ e ∈ s.emotion_history, ∀ p ∈ e.scores, 0 ≤ p.2) :
    ¬ get_average_emotion s 0 = none ∧
    pySliceLast s.emotion_history 0 = s.emotion_history ∧
    ∃ res : AvgResult, get_average_emotion s 0 = some res ∧
      (∀ k, listGetD res.scores k 0 =
        (s.emotion_history.map (fun e => listGetD e.scores k 0)).sum /
          (s.emotion_history.length : ℚ)) := by
  obtain ⟨res, hres, hval, hkeys, hmax⟩ := get_average_emotion_spec s 0 hne hnd hpos
  have hslice : pySliceLast s.emotion_history 0 = s.emotion_history := rfl
  rw [hslice] at hval
  refine ⟨by rw [hres]; exact fun hc => Option.noConfusion hc, hslice, res, hres, hval⟩

/-- C10 (witness): the theorem applied at the spec's two-observation
detector, with window 0: the average is over both observations. -/
theorem get_average_emotion_window_zero_inst :
    ¬ get_average_emotion exampleDetector 0 = none ∧
    pySliceLast exampleDetector.emotion_history 0 = exampleDetector.emotion_history ∧
    ∃ res : AvgResult, get_average_emotion exampleDetector 0 = some res ∧
      (∀ k, listGetD res.scores k 0 =
        (exampleDetector.emotion_history.map (fun e => listGetD e.scores k 0)).sum /
          (exampleDetector.emotion_history.length : ℚ)) :=
  get_average_emotion_window_zero exampleDetector (by decide) (by decide) (by decide)
